import Mathlib

/-!
Verification of `youtube_audio_downloader.py` (class `YouTubeAudioDownloader`
and the `main` entry point) against its natural-language specification.

Strings are modelled as `List Char`.  Python `str.strip()` is modelled with
the ASCII whitespace characters; every string handled in the claims is ASCII.
-/

namespace YTDL

/-- The characters replaced by an underscore in `_sanitize_filename`
(`invalid_chars = '<>:"/\|?*'`, line 338 of the source; `Char.ofNat 34` is the
double-quote character). -/
def invalidChars : List Char :=
  ['<', '>', ':', Char.ofNat 34, '/', '\\', '|', '?', '*']

/-- One step of the sanitization loop: Python `filename.replace(char, '_')`
for a single character `old` (line 340). -/
def replaceChar (old new : Char) (s : List Char) : List Char :=
  s.map fun c => if c = old then new else c

/-- Lines 338-340 of `_sanitize_filename`: replace every invalid character by
an underscore, one `str.replace` per character, in source order. -/
def removeInvalid (s : List Char) : List Char :=
  invalidChars.foldl (fun acc ch => replaceChar ch '_' acc) s

/-- ASCII whitespace as stripped by Python `str.strip()` (line 343).
`Char.ofNat 11` and `Char.ofNat 12` are vertical tab and form feed. -/
def isPySpace (c : Char) : Bool :=
  c == ' ' || c == '\t' || c == '\n' || c == '\r' || c == Char.ofNat 11 || c == Char.ofNat 12

/-- Drop trailing whitespace (the right half of `str.strip()`). -/
def dropTrailing (s : List Char) : List Char :=
  (s.reverse.dropWhile isPySpace).reverse

/-- Python `str.strip()`: drop leading and trailing whitespace. -/
def pyStrip (s : List Char) : List Char :=
  dropTrailing (s.dropWhile isPySpace)

/-- The fallback name substituted when sanitization yields the empty string
(`return filename or "Unknown_Playlist"`, line 345). -/
def unknownPlaylist : List Char := "Unknown_Playlist".toList

/-- `YouTubeAudioDownloader._sanitize_filename` (lines 335-345): replace the
invalid characters, strip whitespace, truncate to 100 characters (in that
order: `filename.strip()[:100]`), and fall back to `"Unknown_Playlist"` when
the result is empty. -/
def sanitize_filename (s : List Char) : List Char :=
  let f1 := removeInvalid s
  let f2 := (pyStrip f1).take 100
  if f2 = [] then unknownPlaylist else f2

/-- Python `output_filename.replace('.mp3', '')` (line 180 of
`download_audio`): delete every left-to-right, non-overlapping occurrence of
the substring `".mp3"`, wherever it appears in the name. -/
def removeMp3 : List Char → List Char
  | '.' :: 'm' :: 'p' :: '3' :: rest => removeMp3 rest
  | c :: rest => c :: removeMp3 rest
  | [] => []

/-- The base filename chosen by `download_audio` (lines 172-187): when a
custom output filename is supplied, its `".mp3"` occurrences are removed and
the remainder is sanitized; otherwise the sanitized video title is used. -/
def download_audio_basename (output_filename : Option (List Char)) (title : List Char) :
    List Char :=
  match output_filename with
  | some f => sanitize_filename (removeMp3 f)
  | none => sanitize_filename title

/-- Pointwise effect of the full replacement loop on a single character. -/
def replAll (c : Char) : Char := if c ∈ invalidChars then '_' else c

/-- `begins pat s` is true when `pat` is an initial segment of `s`. -/
def begins : List Char → List Char → Bool
  | [], _ => true
  | _ :: _, [] => false
  | p :: ps, c :: cs => p == c && begins ps cs

/-- Consume a literal alternative at the front of `s`, if it fits. -/
def dropBegins (pat s : List Char) : Option (List Char) :=
  if begins pat s then some (s.drop pat.length) else none

/-- All remainders after consuming one of the mandatory alternatives. -/
def reqAlt (pats : List (List Char)) (s : List Char) : List (List Char) :=
  pats.filterMap fun p => dropBegins p s

/-- All remainders after an optional group: either nothing is consumed or one
of the alternatives is. -/
def optAlt (pats : List (List Char)) (s : List Char) : List (List Char) :=
  s :: reqAlt pats s

/-- `(https?://)?`: the two forms the optional scheme group can take. -/
def protocolAlts : List (List Char) := ["http://".toList, "https://".toList]

/-- `(youtube|youtu|youtube-nocookie)` from the video-URL regex (line 79). -/
def hostAlts : List (List Char) :=
  ["youtube".toList, "youtu".toList, "youtube-nocookie".toList]

/-- `(com|be)` from the video-URL regex (line 79). -/
def domainAlts : List (List Char) := ["com".toList, "be".toList]

/-- `(youtube|youtu|youtube-nocookie)\.(com|be)/`: remainders after the
mandatory host part of the video-URL regex. -/
def hostStage (s : List Char) : List (List Char) :=
  (reqAlt hostAlts s).flatMap fun s1 =>
    (reqAlt [['.']] s1).flatMap fun s2 =>
      (reqAlt domainAlts s2).flatMap fun s3 => reqAlt [['/']] s3

/-- A character allowed in the captured video id: `[^&=%\?]` (line 80). -/
def isVideoIdChar (c : Char) : Bool :=
  !(c == '&' || c == '=' || c == '%' || c == '?')

/-- `([^&=%\?]{11})`: the remainder starts with 11 id characters. -/
def idTail (s : List Char) : Bool :=
  decide (11 ≤ s.length) && (s.take 11).all isVideoIdChar

/-- `.+\?v=`: remainders after one or more non-newline characters followed by
the literal `"?v="`. -/
def dotPlusQv (s : List Char) : List (List Char) :=
  (List.range s.length).filterMap fun i =>
    if 1 ≤ i ∧ (s.take i).all (fun c => !(c == '\n')) = true
        ∧ begins "?v=".toList (s.drop i) = true
    then some (s.drop (i + 3)) else none

/-- `(watch\?v=|embed/|v/|.+\?v=)?`: the optional path group (line 80). -/
def pathStage (s : List Char) : List (List Char) :=
  optAlt ["watch?v=".toList, "embed/".toList, "v/".toList] s ++ dotPlusQv s

/-- `YouTubeAudioDownloader.is_valid_youtube_url` (lines 76-82): whether
`re.match` of the video-URL regex succeeds at the start of `url`, by
existence of a decomposition through the regex's stages. -/
def is_valid_youtube_url (s : List Char) : Bool :=
  (optAlt protocolAlts s).any fun s1 =>
    (optAlt ["www.".toList] s1).any fun s2 =>
      (hostStage s2).any fun s3 =>
        (pathStage s3).any idTail

/-- A character of the class `[a-zA-Z0-9_-]` used in playlist ids. -/
def isIdChar (c : Char) : Bool := c.isAlpha || c.isDigit || c == '_' || c == '-'

/-- The tail `list=([a-zA-Z0-9_-]+)` shared by the three playlist patterns:
the literal `"list="` followed by at least one id character. -/
def listEqId (s : List Char) : Bool :=
  begins "list=".toList s &&
    (match s.drop 5 with
     | c :: _ => isIdChar c
     | [] => false)

/-- `re.search` of `[&?]list=([a-zA-Z0-9_-]+)` (line 87). -/
def searchAmpList : List Char → Bool
  | [] => false
  | c :: rest => ((c == '&' || c == '?') && listEqId rest) || searchAmpList rest

/-- `re.search` of `youtube\.com/playlist\?list=([a-zA-Z0-9_-]+)` (line 88). -/
def searchPlaylistPat : List Char → Bool
  | [] => false
  | l@(_ :: rest) =>
    (begins "youtube.com/playlist?".toList l && listEqId (l.drop 21))
      || searchPlaylistPat rest

/-- The `.*list=(id)` part of line 89: scan forward over non-newline
characters for `"list="` followed by an id character. -/
def searchListNoNl : List Char → Bool
  | [] => false
  | l@(c :: rest) => listEqId l || (!(c == '\n') && searchListNoNl rest)

/-- `re.search` of `youtube\.com/watch\?.*list=([a-zA-Z0-9_-]+)` (line 89). -/
def searchWatchList : List Char → Bool
  | [] => false
  | l@(_ :: rest) =>
    (begins "youtube.com/watch?".toList l && searchListNoNl (l.drop 18))
      || searchWatchList rest

/-- `YouTubeAudioDownloader.is_playlist_url` (lines 84-91): true when any of
the three playlist patterns is found anywhere in the URL. -/
def is_playlist_url (s : List Char) : Bool :=
  searchAmpList s || searchPlaylistPat s || searchWatchList s

/-- The two recognized locator shapes of the specification. -/
inductive Shape
  | SingleItem
  | Collection
deriving DecidableEq

/-- Locator classification as realized by `main` (lines 404-411) under
auto-detection: a URL recognized by `is_playlist_url` is handled as a
collection, any other URL accepted by `is_valid_youtube_url` as a single
item, and anything else raises `ValueError("Invalid YouTube URL provided")`
(line 164 of `download_audio`). -/
def classify_locator (url : List Char) : Except (List Char) Shape :=
  if is_playlist_url url then Except.ok Shape.Collection
  else if is_valid_youtube_url url then Except.ok Shape.SingleItem
  else Except.error "Invalid YouTube URL provided".toList

/-- A 101-character title: 99 letters followed by a space and a further
letter.  Truncation to 100 characters happens after stripping, so the result
ends in a space and a second sanitization pass strips it again. -/
def longInput : List Char := List.replicate 99 'a' ++ [' ', 'x']

/-- Outcome of one attempted download, as recorded in the result dicts. -/
inductive Status
  | success
  | failed
deriving DecidableEq

/-- One entry of `playlist_info['videos']` as built on lines 142-147. -/
structure Video where
  url : List Char
  title : List Char
  duration : Nat
  uploader : List Char
deriving DecidableEq

/-- The `playlist_info` dict returned by `get_playlist_info` (lines 149-154). -/
structure PlaylistInfo where
  title : List Char
  uploader : List Char
  video_count : Nat
  videos : List Video
deriving DecidableEq

/-- A non-null entry of the extractor's flat playlist response: its id plus
the optional fields read with `entry.get(...)` on lines 143-146. -/
structure RawEntry where
  id : List Char
  title : Option (List Char)
  duration : Option Nat
  uploader : Option (List Char)
deriving DecidableEq

/-- The extractor's playlist response: optional title and uploader, and the
`entries` field (absent key modelled as `none`; a present entry that the
extractor reports as null/unavailable is an inner `none`). -/
structure ExtInfo where
  title : Option (List Char)
  uploader : Option (List Char)
  entries : Option (List (Option RawEntry))
deriving DecidableEq

/-- Lines 142-147: turn one non-null extractor entry into a video record. -/
def entryToVideo (e : RawEntry) : Video :=
  { url := "https://www.youtube.com/watch?v=".toList ++ e.id,
    title := e.title.getD "Unknown Title".toList,
    duration := e.duration.getD 0,
    uploader := e.uploader.getD "Unknown".toList }

/-- The accumulation loop of lines 139-147: append a video for every entry,
skipping the null ones (`if entry:`), preserving the extractor's order. -/
def collectVideos : List (Option RawEntry) → List Video
  | [] => []
  | some e :: rest => entryToVideo e :: collectVideos rest
  | none :: rest => collectVideos rest

/-- `YouTubeAudioDownloader.get_playlist_info` (lines 119-159): reject
non-playlist URLs, fail when the extractor response has no `entries` field
(wrapped by the catch-all on lines 158-159), and otherwise assemble the
playlist info from the non-null entries. -/
def get_playlist_info (url : List Char) (info : ExtInfo) :
    Except (List Char) PlaylistInfo :=
  if is_playlist_url url = false then
    Except.error "URL is not a valid YouTube playlist".toList
  else
    match info.entries with
    | none =>
      Except.error "Failed to get playlist info: No videos found in playlist".toList
    | some es =>
      let videos := collectVideos es
      Except.ok { title := info.title.getD "Unknown Playlist".toList,
                  uploader := info.uploader.getD "Unknown".toList,
                  video_count := videos.length,
                  videos := videos }

/-- POSIX `Path` join, as used for `self.output_dir / name`. -/
def pathJoin (a b : List Char) : List Char := a ++ '/' :: b

/-- The filename part of the yt-dlp output template (lines 65, 272, 311). -/
def tmplSuffix : List Char := "%(title)s.%(ext)s".toList

/-- The mutable instance state touched by `download_playlist`:
`self.output_dir` and `self.ydl_opts['outtmpl']`. -/
structure DState where
  output_dir : List Char
  outtmpl : List Char
deriving DecidableEq

/-- One element of the `results` list of `download_playlist`
(lines 287-291 and 301-306). -/
structure ItemResult where
  video : Video
  file : Option (List Char)
  status : Status
  error : Option (List Char)
deriving DecidableEq

/-- One element of the `results` list of `download_multiple`
(lines 237 and 240). -/
structure UrlResult where
  url : List Char
  file : Option (List Char)
  status : Status
  error : Option (List Char)
deriving DecidableEq

/-- `result["status"] == "success"` for a playlist item result. -/
def isSuccessB (r : ItemResult) : Bool :=
  match r.status with
  | Status.success => true
  | Status.failed => false

/-- `result["status"] == "failed"` for a playlist item result. -/
def isFailedB (r : ItemResult) : Bool :=
  match r.status with
  | Status.success => false
  | Status.failed => true

/-- The per-item loop of `download_playlist` (lines 281-307).  `fetch`
abstracts `download_audio` for a given output directory: it either returns
the saved path or raises.  `i` is the 1-based loop index and `total` is
`len(videos_to_download)`.  The returned triple is the `results` list, the
`successful_downloads` counter, and the number of `time.sleep` calls (the
sleep happens inside the `try`, after a successful download, and only when
`delay_between_downloads > 0 and i < len(videos_to_download)`). -/
def processVideos (fetch : List Char → List Char → Except (List Char) (List Char))
    (dir : List Char) (delay : ℚ) (total : Nat) :
    List Video → Nat → List ItemResult × Nat × Nat
  | [], _ => ([], 0, 0)
  | v :: rest, i =>
    match fetch dir v.url with
    | Except.ok path =>
      let r := processVideos fetch dir delay total rest (i + 1)
      let slept : Nat := if 0 < delay ∧ i < total then 1 else 0
      ({ video := v, file := some path, status := Status.success, error := none } :: r.1,
        r.2.1 + 1, slept + r.2.2)
    | Except.error e =>
      let r := processVideos fetch dir delay total rest (i + 1)
      ({ video := v, file := none, status := Status.failed, error := some e } :: r.1,
        r.2.1, r.2.2)

/-- The summary dict returned by `download_playlist` (lines 320-326), plus
the `sleeps` field recording the observable count of `time.sleep` calls made
during the run. -/
structure Report where
  playlist_info : PlaylistInfo
  results : List ItemResult
  successful_downloads : Nat
  total_videos : Nat
  output_directory : List Char
  sleeps : Nat
deriving DecidableEq

/-- Lines 259-262: truncate the item list when `max_videos` is given and
positive (`if max_videos and max_videos > 0`); otherwise keep all items. -/
def videosToDownload (info : PlaylistInfo) (max_videos : Option Int) : List Video :=
  match max_videos with
  | some k => if 0 < k then info.videos.take k.toNat else info.videos
  | none => info.videos

/-- `YouTubeAudioDownloader.download_playlist` (lines 244-333).  `extInfo` is
the extractor's playlist response and `fetch` abstracts `download_audio`.
Returns the result (report or error message) together with the instance
state after the call: the output directory is redirected to the sanitized
playlist subdirectory for the duration of the loop (lines 269-272) and
restored afterwards (lines 309-311; the error branch before the redirect
leaves the state untouched, matching lines 328-333). -/
def download_playlist (st : DState) (extInfo : ExtInfo)
    (fetch : List Char → List Char → Except (List Char) (List Char))
    (max_videos : Option Int) (delay : ℚ) (url : List Char) :
    Except (List Char) Report × DState :=
  if is_playlist_url url = false then
    (Except.error "URL is not a valid YouTube playlist".toList, st)
  else
    match get_playlist_info url extInfo with
    | Except.error e =>
      (Except.error ("Playlist download failed: ".toList ++ e), st)
    | Except.ok info =>
      let vtd := videosToDownload info max_videos
      let playlist_name := sanitize_filename info.title
      let playlist_dir := pathJoin st.output_dir playlist_name
      let stDuring : DState :=
        { output_dir := playlist_dir, outtmpl := pathJoin playlist_dir tmplSuffix }
      let r := processVideos fetch stDuring.output_dir delay vtd.length vtd 1
      let stAfter : DState :=
        { output_dir := st.output_dir, outtmpl := pathJoin st.output_dir tmplSuffix }
      (Except.ok { playlist_info := info, results := r.1,
                   successful_downloads := r.2.1, total_videos := vtd.length,
                   output_directory := playlist_dir, sleeps := r.2.2 }, stAfter)

/-- `YouTubeAudioDownloader.download_multiple` (lines 230-242): one attempt
per URL in order, each failure caught and recorded, no inter-item delay. -/
def download_multiple (st : DState)
    (fetch : List Char → List Char → Except (List Char) (List Char)) :
    List (List Char) → List UrlResult
  | [] => []
  | u :: rest =>
    (match fetch st.output_dir u with
     | Except.ok f =>
       { url := u, file := some f, status := Status.success, error := none }
     | Except.error e =>
       { url := u, file := none, status := Status.failed, error := some e })
      :: download_multiple st fetch rest

/-- A concrete playlist URL (matches pattern 1 of `is_playlist_url`). -/
def cPlaylistUrl : List Char := "https://www.youtube.com/playlist?list=PL123".toList

/-- A concrete available extractor entry. -/
def cEntry1 : RawEntry :=
  { id := "abc12345678".toList, title := some "t1".toList,
    duration := some 10, uploader := some "u1".toList }

/-- A second concrete available extractor entry. -/
def cEntry2 : RawEntry :=
  { id := "def12345678".toList, title := some "t2".toList,
    duration := none, uploader := none }

/-- A concrete extractor response: two available entries around a null one. -/
def cExtInfo : ExtInfo :=
  { title := some "MyList".toList, uploader := some "up".toList,
    entries := some [some cEntry1, none, some cEntry2] }

/-- The video built from `cEntry1`. -/
def cV1 : Video := entryToVideo cEntry1

/-- The video built from `cEntry2`. -/
def cV2 : Video := entryToVideo cEntry2

/-- A freshly initialized downloader state (output directory `downloads`). -/
def cSt : DState :=
  { output_dir := "downloads".toList, outtmpl := pathJoin "downloads".toList tmplSuffix }

/-- A concrete download oracle: the first video's URL fails, all others
succeed and are saved as `out.mp3` in the current output directory. -/
def cFetch (dir url : List Char) : Except (List Char) (List Char) :=
  if url = cV1.url then Except.error "boom".toList
  else Except.ok (pathJoin dir "out.mp3".toList)

/-- The playlist subdirectory for the `cExtInfo` playlist. -/
def cPlaylistDir : List Char := pathJoin "downloads".toList "MyList".toList

/-- The playlist info assembled from `cExtInfo`. -/
def cInfoVal : PlaylistInfo :=
  { title := "MyList".toList, uploader := "up".toList, video_count := 2,
    videos := [cV1, cV2] }

/-- The report produced by `download_playlist` on the concrete fixture with
no item limit: the first item fails, the second succeeds, no sleeps. -/
def cRep : Report :=
  { playlist_info := cInfoVal,
    results := [
      { video := cV1, file := none, status := Status.failed,
        error := some "boom".toList },
      { video := cV2, file := some (pathJoin cPlaylistDir "out.mp3".toList),
        status := Status.success, error := none } ],
    successful_downloads := 1, total_videos := 2,
    output_directory := cPlaylistDir, sleeps := 0 }

/-- The report produced on the same fixture with `max_videos = 1`. -/
def cRep1 : Report :=
  { playlist_info := cInfoVal,
    results := [
      { video := cV1, file := none, status := Status.failed,
        error := some "boom".toList } ],
    successful_downloads := 0, total_videos := 1,
    output_directory := cPlaylistDir, sleeps := 0 }

/-- An extractor response whose `entries` list is present but empty. -/
def cEmptyExtInfo : ExtInfo :=
  { title := some "T".toList, uploader := none, entries := some [] }

theorem foldl_replaceChar (ps : List Char) (s : List Char) :
    ps.foldl (fun acc ch => replaceChar ch '_' acc) s
      = s.map fun c => ps.foldl (fun x ch => if x = ch then '_' else x) c := by
  induction ps generalizing s with
  | nil => simp
  | cons p ps ih =>
    simp only [List.foldl_cons]
    rw [ih]
    simp only [replaceChar, List.map_map]
    rfl

theorem charFold_eq_replAll (c : Char) :
    invalidChars.foldl (fun x ch => if x = ch then '_' else x) c = replAll c := by
  by_cases h : c ∈ invalidChars
  · have h' := h
    simp only [invalidChars, List.mem_cons, List.not_mem_nil, or_false] at h'
    rcases h' with h' | h' | h' | h' | h' | h' | h' | h' | h' <;> subst h' <;> decide
  · have h' := h
    simp only [invalidChars, List.mem_cons, List.not_mem_nil, or_false, not_or] at h'
    obtain ⟨h1, h2, h3, h4, h5, h6, h7, h8, h9⟩ := h'
    simp [invalidChars, replAll, h, h1, h2, h3, h4, h5, h6, h7, h8, h9]

theorem removeInvalid_eq_map (s : List Char) : removeInvalid s = s.map replAll := by
  rw [removeInvalid, foldl_replaceChar]
  simp only [charFold_eq_replAll]

theorem replAll_not_invalid (c : Char) : replAll c ∉ invalidChars := by
  by_cases h : c ∈ invalidChars
  · rw [replAll, if_pos h]; decide
  · rw [replAll, if_neg h]; exact h

theorem replAll_id_of_not {c : Char} (h : c ∉ invalidChars) : replAll c = c := by
  rw [replAll, if_neg h]

theorem mem_removeInvalid_not_invalid {c : Char} {s : List Char}
    (h : c ∈ removeInvalid s) : c ∉ invalidChars := by
  rw [removeInvalid_eq_map] at h
  obtain ⟨b, _, rfl⟩ := List.mem_map.mp h
  exact replAll_not_invalid b

theorem map_id_of_mem {α : Type} (f : α → α) (l : List α) (h : ∀ c ∈ l, f c = c) :
    l.map f = l := by
  induction l with
  | nil => rfl
  | cons a t ih =>
    simp only [List.map_cons]
    rw [h a (List.mem_cons_self a t), ih (fun c hc => h c (List.mem_cons_of_mem a hc))]

theorem length_removeInvalid (s : List Char) : (removeInvalid s).length = s.length := by
  rw [removeInvalid_eq_map, List.length_map]

theorem dropWhile_idem (p : Char → Bool) (l : List Char) :
    (l.dropWhile p).dropWhile p = l.dropWhile p := by
  induction l with
  | nil => rfl
  | cons a t ih =>
    by_cases h : p a = true
    · rw [List.dropWhile_cons_of_pos h]; exact ih
    · rw [List.dropWhile_cons_of_neg h, List.dropWhile_cons_of_neg h]

theorem length_dropWhile_le (p : Char → Bool) (l : List Char) :
    (l.dropWhile p).length ≤ l.length := by
  induction l with
  | nil => exact Nat.le_refl 0
  | cons a t ih =>
    by_cases h : p a = true
    · rw [List.dropWhile_cons_of_pos h]; exact Nat.le_succ_of_le ih
    · rw [List.dropWhile_cons_of_neg h]

theorem mem_dropWhile {c : Char} {p : Char → Bool} {l : List Char}
    (h : c ∈ l.dropWhile p) : c ∈ l := by
  have ht := List.takeWhile_append_dropWhile p l
  rw [← ht]
  exact List.mem_append.mpr (Or.inr h)

theorem mem_dropTrailing {c : Char} {s : List Char} (h : c ∈ dropTrailing s) : c ∈ s := by
  rw [dropTrailing, List.mem_reverse] at h
  exact List.mem_reverse.mp (mem_dropWhile h)

theorem length_dropTrailing_le (s : List Char) : (dropTrailing s).length ≤ s.length := by
  rw [dropTrailing, List.length_reverse]
  calc (s.reverse.dropWhile isPySpace).length
      ≤ s.reverse.length := length_dropWhile_le _ _
    _ = s.length := List.length_reverse s

theorem mem_pyStrip {c : Char} {s : List Char} (h : c ∈ pyStrip s) : c ∈ s :=
  mem_dropWhile (mem_dropTrailing h)

theorem length_pyStrip_le (s : List Char) : (pyStrip s).length ≤ s.length :=
  Nat.le_trans (length_dropTrailing_le _) (length_dropWhile_le _ _)

theorem dropTrailing_append (s : List Char) : ∃ t, dropTrailing s ++ t = s := by
  refine ⟨(s.reverse.takeWhile isPySpace).reverse, ?_⟩
  rw [dropTrailing, ← List.reverse_append, List.takeWhile_append_dropWhile,
    List.reverse_reverse]

theorem dropWhile_cons_self {p : Char → Bool} {a : Char} {t : List Char}
    (h : (a :: t).dropWhile p = a :: t) : p a = false := by
  by_cases hp : p a = true
  · rw [List.dropWhile_cons_of_pos hp] at h
    have hl := length_dropWhile_le p t
    rw [h, List.length_cons] at hl
    omega
  · simpa using hp

theorem dropWhile_dropTrailing {s : List Char}
    (h : s.dropWhile isPySpace = s) :
    (dropTrailing s).dropWhile isPySpace = dropTrailing s := by
  cases hd : dropTrailing s with
  | nil => rfl
  | cons a u =>
    obtain ⟨t, ht⟩ := dropTrailing_append s
    rw [hd] at ht
    have hs : s = a :: (u ++ t) := by rw [← ht, List.cons_append]
    rw [hs] at h
    have hpa : isPySpace a = false := dropWhile_cons_self h
    rw [List.dropWhile_cons_of_neg (by simp [hpa])]

theorem dropTrailing_idem (s : List Char) :
    dropTrailing (dropTrailing s) = dropTrailing s := by
  simp only [dropTrailing, List.reverse_reverse, dropWhile_idem]

theorem pyStrip_idem (s : List Char) : pyStrip (pyStrip s) = pyStrip s := by
  simp only [pyStrip]
  rw [dropWhile_dropTrailing (dropWhile_idem isPySpace s), dropTrailing_idem]

/-- C3: for every string `s`, `sanitize(s)` contains none of the characters
`< > : " / \ | ? *`, has length at most 100, and is never empty. -/
theorem sanitize_filename_safe (s : List Char) :
    (sanitize_filename s).all (fun c => !(decide (c ∈ invalidChars))) = true
  ∧ (sanitize_filename s).length ≤ 100
  ∧ sanitize_filename s ≠ [] := by
  simp only [sanitize_filename]
  by_cases h : (pyStrip (removeInvalid s)).take 100 = []
  · rw [if_pos h]
    refine ⟨by decide, by decide, by decide⟩
  · rw [if_neg h]
    refine ⟨?_, ?_, h⟩
    · rw [List.all_eq_true]
      intro c hc
      have h1 : c ∈ pyStrip (removeInvalid s) := List.take_subset _ _ hc
      have h2 : c ∉ invalidChars := mem_removeInvalid_not_invalid (mem_pyStrip h1)
      simp [h2]
    · rw [List.length_take]
      exact Nat.min_le_left _ _

/-- C2 counterexample: `sanitize` is not idempotent.  On a 101-character
input whose 100th character is a space, stripping happens before truncation,
so the first pass returns a string ending in a space and the second pass
strips that space off. -/
theorem sanitize_filename_not_idempotent_cx :
    sanitize_filename (sanitize_filename longInput) ≠ sanitize_filename longInput := by
  decide

/-- C2 (amended): `sanitize` is idempotent on every input of length at most
100; in general a second application can differ, but only by stripping
trailing whitespace exposed by the truncation to 100 characters. -/
theorem sanitize_filename_idem_of_short (s : List Char) (h : s.length ≤ 100) :
    sanitize_filename (sanitize_filename s) = sanitize_filename s := by
  have hlen1 : (pyStrip (removeInvalid s)).length ≤ 100 := by
    calc (pyStrip (removeInvalid s)).length
        ≤ (removeInvalid s).length := length_pyStrip_le _
      _ = s.length := length_removeInvalid s
      _ ≤ 100 := h
  have htake : (pyStrip (removeInvalid s)).take 100 = pyStrip (removeInvalid s) :=
    List.take_of_length_le hlen1
  by_cases hz : pyStrip (removeInvalid s) = []
  · have hempty : sanitize_filename s = unknownPlaylist := by
      simp only [sanitize_filename]
      rw [htake, if_pos hz]
    rw [hempty]
    decide
  · have hres : sanitize_filename s = pyStrip (removeInvalid s) := by
      simp only [sanitize_filename]
      rw [htake, if_neg hz]
    rw [hres]
    have hclean : removeInvalid (pyStrip (removeInvalid s)) = pyStrip (removeInvalid s) := by
      rw [removeInvalid_eq_map]
      exact map_id_of_mem _ _ fun c hc =>
        replAll_id_of_not (mem_removeInvalid_not_invalid (mem_pyStrip hc))
    simp only [sanitize_filename]
    rw [hclean, pyStrip_idem, htake, if_neg hz]

theorem sanitize_filename_idem_of_short_witness :
    (" a<b ".toList.length ≤ 100)
  ∧ sanitize_filename (sanitize_filename " a<b ".toList) = sanitize_filename " a<b ".toList :=
  ⟨by decide, sanitize_filename_idem_of_short (" a<b ".toList) (by decide)⟩

theorem collectVideos_eq (es : List (Option RawEntry)) :
    collectVideos es = (es.filterMap id).map entryToVideo := by
  induction es with
  | nil => rfl
  | cons e rest ih =>
    cases e with
    | none => simpa [collectVideos, List.filterMap_cons] using ih
    | some a => simp [collectVideos, List.filterMap_cons, ih]

theorem processVideos_map (fetch : List Char → List Char → Except (List Char) (List Char))
    (dir : List Char) (delay : ℚ) (total : Nat) (l : List Video) :
    ∀ i : Nat, (processVideos fetch dir delay total l i).1.map (fun r => r.video) = l := by
  induction l with
  | nil => intro i; rfl
  | cons v rest ih =>
    intro i
    cases hf : fetch dir v.url with
    | ok path => simp [processVideos, hf, ih (i + 1)]
    | error e => simp [processVideos, hf, ih (i + 1)]

theorem processVideos_length (fetch : List Char → List Char → Except (List Char) (List Char))
    (dir : List Char) (delay : ℚ) (total : Nat) (l : List Video) :
    ∀ i : Nat, (processVideos fetch dir delay total l i).1.length = l.length := by
  induction l with
  | nil => intro i; rfl
  | cons v rest ih =>
    intro i
    cases hf : fetch dir v.url with
    | ok path => simp [processVideos, hf, ih (i + 1)]
    | error e => simp [processVideos, hf, ih (i + 1)]

theorem processVideos_succ (fetch : List Char → List Char → Except (List Char) (List Char))
    (dir : List Char) (delay : ℚ) (total : Nat) (l : List Video) :
    ∀ i : Nat, (processVideos fetch dir delay total l i).2.1
      = (processVideos fetch dir delay total l i).1.countP isSuccessB := by
  induction l with
  | nil => intro i; rfl
  | cons v rest ih =>
    intro i
    cases hf : fetch dir v.url with
    | ok path =>
      simp [processVideos, hf, List.countP_cons, isSuccessB, ih (i + 1)]
    | error e =>
      simp [processVideos, hf, List.countP_cons, isSuccessB, ih (i + 1)]

theorem countP_success_failed (rs : List ItemResult) :
    rs.countP isSuccessB + rs.countP isFailedB = rs.length := by
  induction rs with
  | nil => rfl
  | cons r rest ih =>
    cases hs : r.status with
    | success =>
      simp [List.countP_cons, isSuccessB, isFailedB, hs]
      omega
    | failed =>
      simp [List.countP_cons, isSuccessB, isFailedB, hs]
      omega

theorem processVideos_sleeps (fetch : List Char → List Char → Except (List Char) (List Char))
    (dir : List Char) (delay : ℚ) (hd : 0 < delay) (l : List Video) :
    ∀ (i total : Nat), i + l.length = total + 1 →
      (processVideos fetch dir delay total l i).2.2
        = ((processVideos fetch dir delay total l i).1.dropLast).countP isSuccessB := by
  induction l with
  | nil => intro i total _; rfl
  | cons v rest ih =>
    intro i total hit
    by_cases hr : rest = []
    · subst hr
      have hi : i = total := by simpa using hit
      cases hf : fetch dir v.url with
      | ok path =>
        simp only [processVideos, hf]
        rw [if_neg (fun hc => absurd hc.2 (by omega))]
        simp [processVideos]
      | error e =>
        simp [processVideos, hf]
    · have hrl : 1 ≤ rest.length := List.length_pos.mpr hr
      have hlt : i < total := by
        simp only [List.length_cons] at hit
        omega
      have hih := ih (i + 1) total (by simp only [List.length_cons] at hit; omega)
      have hlen := processVideos_length fetch dir delay total rest (i + 1)
      have hne : (processVideos fetch dir delay total rest (i + 1)).1 ≠ [] := by
        intro hc
        rw [hc] at hlen
        exact hr (List.length_eq_zero.mp hlen.symm)
      cases hf : fetch dir v.url with
      | ok path =>
        simp only [processVideos, hf]
        rw [if_pos ⟨hd, hlt⟩, List.dropLast_cons_of_ne_nil hne, List.countP_cons, ← hih]
        have hs : isSuccessB (ItemResult.mk v (some path) Status.success none) = true := rfl
        rw [hs, if_pos rfl]
        omega
      | error e =>
        simp only [processVideos, hf]
        rw [List.dropLast_cons_of_ne_nil hne, List.countP_cons, ← hih]
        have hs : isSuccessB (ItemResult.mk v none Status.failed (some e)) = false := rfl
        rw [hs, if_neg (by decide)]
        omega

theorem download_multiple_results (st : DState)
    (fetch : List Char → List Char → Except (List Char) (List Char))
    (urls : List (List Char)) :
    ((download_multiple st fetch urls).map (fun r => r.url) = urls)
  ∧ ((download_multiple st fetch urls).length = urls.length) := by
  induction urls with
  | nil => exact ⟨rfl, rfl⟩
  | cons u rest ih =>
    cases hf : fetch st.output_dir u with
    | ok f => simp [download_multiple, hf, ih.1, ih.2]
    | error e => simp [download_multiple, hf, ih.1, ih.2]

/-- C1: classification is mutually exclusive and exhaustive over the two
recognized shapes - a locator classified as a collection is never classified
as a single item and vice versa, and a locator matching neither shape
produces the invalid-locator error. -/
theorem classify_locator_exclusive_exhaustive (url : List Char) :
    (is_playlist_url url = true
      ∧ classify_locator url = Except.ok Shape.Collection
      ∧ classify_locator url ≠ Except.ok Shape.SingleItem)
  ∨ (is_playlist_url url = false ∧ is_valid_youtube_url url = true
      ∧ classify_locator url = Except.ok Shape.SingleItem
      ∧ classify_locator url ≠ Except.ok Shape.Collection)
  ∨ (is_playlist_url url = false ∧ is_valid_youtube_url url = false
      ∧ classify_locator url = Except.error "Invalid YouTube URL provided".toList) := by
  by_cases hp : is_playlist_url url = true
  · left
    refine ⟨hp, ?_, ?_⟩ <;> simp [classify_locator, hp]
  · by_cases hv : is_valid_youtube_url url = true
    · right; left
      refine ⟨by simpa using hp, hv, ?_, ?_⟩ <;> simp [classify_locator, hp, hv]
    · right; right
      refine ⟨by simpa using hp, by simpa using hv, ?_⟩
      simp [classify_locator, hp, hv]

/-- C10: `download_audio` removes every occurrence of `".mp3"` from a custom
output filename - not only a trailing extension - before sanitizing, so for
a name such as `"a.mp3b"` the saved base name `"ab"` differs from the
sanitized form of the given name. -/
theorem download_audio_mp3_removal :
    (∀ f t, download_audio_basename (some f) t = sanitize_filename (removeMp3 f))
  ∧ removeMp3 "a.mp3b".toList = "ab".toList
  ∧ download_audio_basename (some "a.mp3b".toList) "t".toList = "ab".toList
  ∧ sanitize_filename "a.mp3b".toList = "a.mp3b".toList
  ∧ download_audio_basename (some "a.mp3b".toList) "t".toList
      ≠ sanitize_filename "a.mp3b".toList
  ∧ removeMp3 "x.mp3y.mp3z".toList = "xyz".toList := by
  exact ⟨fun f t => rfl, by decide, by decide, by decide, by decide, by decide⟩

theorem report_invariants_core (fetch : List Char → List Char → Except (List Char) (List Char))
    (dir : List Char) (delay : ℚ) (vtd : List Video) :
    (processVideos fetch dir delay vtd.length vtd 1).2.1
      = (processVideos fetch dir delay vtd.length vtd 1).1.countP isSuccessB
  ∧ vtd.length = (processVideos fetch dir delay vtd.length vtd 1).1.length
  ∧ (processVideos fetch dir delay vtd.length vtd 1).2.1
      + (processVideos fetch dir delay vtd.length vtd 1).1.countP isFailedB
      = vtd.length := by
  refine ⟨processVideos_succ _ _ _ _ _ 1, (processVideos_length _ _ _ _ _ 1).symm, ?_⟩
  rw [processVideos_succ _ _ _ _ _ 1]
  have hl := processVideos_length fetch dir delay vtd.length vtd 1
  conv_rhs => rw [← hl]
  exact countP_success_failed _

/-- C6: every report returned by `download_playlist` satisfies
`successful_downloads = count of successful results`,
`total_videos = length of results`, and
`successful_downloads + count of failed results = total_videos`. -/
theorem download_playlist_report_invariants (st : DState) (extInfo : ExtInfo)
    (fetch : List Char → List Char → Except (List Char) (List Char))
    (max_videos : Option Int) (delay : ℚ) (url : List Char) :
    ∀ rep, (download_playlist st extInfo fetch max_videos delay url).1 = Except.ok rep →
      rep.successful_downloads = rep.results.countP isSuccessB
    ∧ rep.total_videos = rep.results.length
    ∧ rep.successful_downloads + rep.results.countP isFailedB = rep.total_videos := by
  intro rep hrep
  cases hb : is_playlist_url url with
  | false => simp [download_playlist, hb] at hrep
  | true =>
    cases hE : extInfo.entries with
    | none => simp [download_playlist, get_playlist_info, hb, hE] at hrep
    | some es =>
      simp only [download_playlist, get_playlist_info, hb, hE] at hrep
      simp at hrep
      subst hrep
      exact ⟨(report_invariants_core fetch _ delay _).1,
             (report_invariants_core fetch _ delay _).2.1,
             (report_invariants_core fetch _ delay _).2.2⟩

theorem download_playlist_report_invariants_witness :
    cRep.successful_downloads = cRep.results.countP isSuccessB
  ∧ cRep.total_videos = cRep.results.length
  ∧ cRep.successful_downloads + cRep.results.countP isFailedB = cRep.total_videos :=
  download_playlist_report_invariants cSt cExtInfo cFetch none 1 cPlaylistUrl cRep rfl

theorem truncation_core (fetch : List Char → List Char → Except (List Char) (List Char))
    (dir : List Char) (delay : ℚ) (vtd : List Video) :
    (processVideos fetch dir delay vtd.length vtd 1).1.map (fun r => r.video) = vtd
  ∧ (processVideos fetch dir delay vtd.length vtd 1).1.length = vtd.length :=
  ⟨processVideos_map _ _ _ _ _ 1, processVideos_length _ _ _ _ _ 1⟩

/-- C5: with `max_videos = k` and `0 < k`, `download_playlist` attempts
exactly the first `k` items in original order (`k` items when `k` is below
the collection size); with `max_videos` absent or not positive it attempts
all items in original order. -/
theorem download_playlist_truncation (st : DState) (extInfo : ExtInfo)
    (fetch : List Char → List Char → Except (List Char) (List Char))
    (delay : ℚ) (url : List Char) :
    (∀ k : Int, 0 < k →
      ∀ rep, (download_playlist st extInfo fetch (some k) delay url).1 = Except.ok rep →
        rep.results.map (fun r => r.video) = rep.playlist_info.videos.take k.toNat
      ∧ (k.toNat < rep.playlist_info.videos.length → rep.results.length = k.toNat))
  ∧ (∀ rep, (download_playlist st extInfo fetch none delay url).1 = Except.ok rep →
      rep.results.map (fun r => r.video) = rep.playlist_info.videos)
  ∧ (∀ k : Int, k ≤ 0 →
      ∀ rep, (download_playlist st extInfo fetch (some k) delay url).1 = Except.ok rep →
        rep.results.map (fun r => r.video) = rep.playlist_info.videos) := by
  refine ⟨?_, ?_, ?_⟩
  · intro k hk rep hrep
    cases hb : is_playlist_url url with
    | false => simp [download_playlist, hb] at hrep
    | true =>
      cases hE : extInfo.entries with
      | none => simp [download_playlist, get_playlist_info, hb, hE] at hrep
      | some es =>
        simp only [download_playlist, get_playlist_info, hb, hE] at hrep
        simp at hrep
        subst hrep
        constructor
        · refine Eq.trans (truncation_core fetch _ delay _).1 ?_
          simp only [videosToDownload]
          rw [if_pos hk]
        · intro hk2
          refine Eq.trans (truncation_core fetch _ delay _).2 ?_
          simp only [videosToDownload]
          rw [if_pos hk, List.length_take]
          exact Nat.min_eq_left (Nat.le_of_lt hk2)
  · intro rep hrep
    cases hb : is_playlist_url url with
    | false => simp [download_playlist, hb] at hrep
    | true =>
      cases hE : extInfo.entries with
      | none => simp [download_playlist, get_playlist_info, hb, hE] at hrep
      | some es =>
        simp only [download_playlist, get_playlist_info, hb, hE] at hrep
        simp at hrep
        subst hrep
        exact Eq.trans (truncation_core fetch _ delay _).1 (by simp [videosToDownload])
  · intro k hk rep hrep
    cases hb : is_playlist_url url with
    | false => simp [download_playlist, hb] at hrep
    | true =>
      cases hE : extInfo.entries with
      | none => simp [download_playlist, get_playlist_info, hb, hE] at hrep
      | some es =>
        simp only [download_playlist, get_playlist_info, hb, hE] at hrep
        simp at hrep
        subst hrep
        refine Eq.trans (truncation_core fetch _ delay _).1 ?_
        simp only [videosToDownload]
        rw [if_neg (by omega)]

theorem download_playlist_truncation_witness :
    cRep1.results.map (fun r => r.video) = cRep1.playlist_info.videos.take (1 : Int).toNat
  ∧ cRep1.results.length = (1 : Int).toNat :=
  ⟨(((download_playlist_truncation cSt cExtInfo cFetch 1 cPlaylistUrl).1 1
      (by decide)) cRep1 rfl).1,
   (((download_playlist_truncation cSt cExtInfo cFetch 1 cPlaylistUrl).1 1
      (by decide)) cRep1 rfl).2 (by decide)⟩

/-- C7: in both `download_multiple` and the per-item loop of
`download_playlist`, a failed item does not abort the remaining items: the
results carry exactly one entry per attempted item, in input order, whatever
the download outcomes are. -/
theorem per_item_failure_isolation (st : DState)
    (fetch : List Char → List Char → Except (List Char) (List Char))
    (urls : List (List Char)) (dir : List Char) (delay : ℚ)
    (total : Nat) (l : List Video) (i : Nat) :
    (download_multiple st fetch urls).map (fun r => r.url) = urls
  ∧ (download_multiple st fetch urls).length = urls.length
  ∧ (processVideos fetch dir delay total l i).1.map (fun r => r.video) = l
  ∧ (processVideos fetch dir delay total l i).1.length = l.length :=
  ⟨(download_multiple_results st fetch urls).1,
   (download_multiple_results st fetch urls).2,
   processVideos_map fetch dir delay total l i,
   processVideos_length fetch dir delay total l i⟩

/-- C8: whether `download_playlist` returns a report or an error, the
output-directory state after the call (and, for a well-formed state, the
derived output template) equals its value before the call; the redirection
to the sanitized playlist subdirectory is visible only in the report's
output directory. -/
theorem download_playlist_restores_state (st : DState) (extInfo : ExtInfo)
    (fetch : List Char → List Char → Except (List Char) (List Char))
    (max_videos : Option Int) (delay : ℚ) (url : List Char) :
    ((download_playlist st extInfo fetch max_videos delay url).2.output_dir
      = st.output_dir)
  ∧ (st.outtmpl = pathJoin st.output_dir tmplSuffix →
      (download_playlist st extInfo fetch max_videos delay url).2 = st)
  ∧ (∀ rep, (download_playlist st extInfo fetch max_videos delay url).1 = Except.ok rep →
      rep.output_directory
        = pathJoin st.output_dir
            (sanitize_filename (extInfo.title.getD "Unknown Playlist".toList))) := by
  obtain ⟨d, t⟩ := st
  cases hb : is_playlist_url url with
  | false =>
    refine ⟨?_, ?_, ?_⟩
    · simp [download_playlist, hb]
    · intro _; simp [download_playlist, hb]
    · intro rep hrep; simp [download_playlist, hb] at hrep
  | true =>
    cases hE : extInfo.entries with
    | none =>
      refine ⟨?_, ?_, ?_⟩
      · simp [download_playlist, get_playlist_info, hb, hE]
      · intro _; simp [download_playlist, get_playlist_info, hb, hE]
      · intro rep hrep; simp [download_playlist, get_playlist_info, hb, hE] at hrep
    | some es =>
      refine ⟨?_, ?_, ?_⟩
      · simp [download_playlist, get_playlist_info, hb, hE]
      · intro h
        simp only at h
        simp [download_playlist, get_playlist_info, hb, hE, h]
      · intro rep hrep
        simp only [download_playlist, get_playlist_info, hb, hE] at hrep
        simp at hrep
        subst hrep
        rfl

theorem download_playlist_restores_state_witness :
    (download_playlist cSt cExtInfo cFetch none 1 cPlaylistUrl).2 = cSt
  ∧ cRep.output_directory
      = pathJoin cSt.output_dir
          (sanitize_filename (cExtInfo.title.getD "Unknown Playlist".toList)) :=
  ⟨(download_playlist_restores_state cSt cExtInfo cFetch none 1 cPlaylistUrl).2.1 rfl,
   (download_playlist_restores_state cSt cExtInfo cFetch none 1 cPlaylistUrl).2.2 cRep rfl⟩

/-- C4 counterexample: on a two-item playlist whose first item fails, with
`delay = 1 > 0`, `download_playlist` performs zero suspensions, not
`n - 1 = 1`: the sleep sits inside the `try` after a successful download, so
no suspension follows a failed item. -/
theorem download_playlist_delay_cx :
    (0 : ℚ) < 1
  ∧ (download_playlist cSt cExtInfo cFetch none 1 cPlaylistUrl).1.map
      (fun rep => (rep.total_videos, rep.sleeps)) = Except.ok (2, 0)
  ∧ ¬ ((0 : Nat) = 2 - 1) :=
  ⟨by decide, rfl, by decide⟩

/-- C4 (amended): with a positive delay, a suspension occurs exactly after
each successful item other than the last one - never after the last item and
never after a failed item - so the number of suspensions equals the number
of successes among all but the last result. -/
theorem download_playlist_sleeps_after_success (st : DState) (extInfo : ExtInfo)
    (fetch : List Char → List Char → Except (List Char) (List Char))
    (max_videos : Option Int) (delay : ℚ) (url : List Char) (hd : 0 < delay) :
    ∀ rep, (download_playlist st extInfo fetch max_videos delay url).1 = Except.ok rep →
      rep.sleeps = (rep.results.dropLast).countP isSuccessB := by
  intro rep hrep
  cases hb : is_playlist_url url with
  | false => simp [download_playlist, hb] at hrep
  | true =>
    cases hE : extInfo.entries with
    | none => simp [download_playlist, get_playlist_info, hb, hE] at hrep
    | some es =>
      simp only [download_playlist, get_playlist_info, hb, hE] at hrep
      simp at hrep
      subst hrep
      exact processVideos_sleeps fetch _ delay hd _ 1 _ (by omega)

theorem download_playlist_sleeps_after_success_witness :
    cRep.sleeps = (cRep.results.dropLast).countP isSuccessB :=
  download_playlist_sleeps_after_success cSt cExtInfo cFetch none 1 cPlaylistUrl
    (by decide) cRep rfl

/-- C9 counterexample: when the extractor reports a present but empty entry
list, `get_playlist_info` succeeds with an empty collection instead of
failing - the only failing condition is a missing `entries` field. -/
theorem get_playlist_info_empty_entries_cx :
    cEmptyExtInfo.entries = some ([] : List (Option RawEntry))
  ∧ get_playlist_info cPlaylistUrl cEmptyExtInfo
      = Except.ok { title := "T".toList, uploader := "Unknown".toList,
                    video_count := 0, videos := [] } :=
  ⟨rfl, rfl⟩

/-- C9 (amended): `get_playlist_info` silently drops every entry the
extractor reports as null, returning the remaining items in the extractor's
order, and fails with the wrapped extraction error exactly when the
extractor response has no `entries` field (a present-but-empty list yields
an empty collection without error). -/
theorem get_playlist_info_drop_and_error (url : List Char) (info : ExtInfo)
    (hurl : is_playlist_url url = true) :
    (info.entries = none →
      get_playlist_info url info
        = Except.error "Failed to get playlist info: No videos found in playlist".toList)
  ∧ (∀ es, info.entries = some es →
      get_playlist_info url info
        = Except.ok { title := info.title.getD "Unknown Playlist".toList,
                      uploader := info.uploader.getD "Unknown".toList,
                      video_count := ((es.filterMap id).map entryToVideo).length,
                      videos := (es.filterMap id).map entryToVideo }) := by
  constructor
  · intro hE
    simp [get_playlist_info, hurl, hE]
  · intro es hE
    simp [get_playlist_info, hurl, hE, collectVideos_eq]

theorem get_playlist_info_drop_and_error_witness :
    get_playlist_info cPlaylistUrl cExtInfo
      = Except.ok { title := "MyList".toList, uploader := "up".toList,
                    video_count := 2, videos := [cV1, cV2] } :=
  (get_playlist_info_drop_and_error cPlaylistUrl cExtInfo (by decide)).2
    [some cEntry1, none, some cEntry2] rfl

end YTDL
